import Mathlib

/-!
Verification development for the calculator engine: arbitrary-precision
decimal operands, the arithmetic operation strategy set with its factory,
immutable calculation records, the history engine with memento-based
undo/redo, and the tabular persistence adapter.

The engine modules themselves (`app/operations.py`, `app/calculation.py`,
`app/calculator.py`, `app/exceptions.py`, `app/calculator_memento.py`) are
not part of the source tree that accompanies this development; only their
test suites and callers are.  Every definition below that embeds one of
those modules is therefore marked `Modelled from the spec:` and follows the
specification's description of the module, tightened by the behaviour the
repository's own tests pin down (`tests/test_operations.py`,
`tests/test_calculation.py`, `tests/test_calculator.py`,
`tests/test_memento.py`).
-/

/-- Modelled from the spec: operands are arbitrary-precision decimal
numbers (`decimal.Decimal`), never binary floating point.  A decimal is a
signed integer coefficient `m` together with a scale `e`; its numeric
value is `m / 10 ^ e`.  As in Python's `Decimal`, the representation is
not canonical: `2.50` is `⟨250, 2⟩` while `2.5` is `⟨25, 1⟩`. -/
structure Dec where
  m : Int
  e : Nat
deriving DecidableEq, Repr

/-- Numeric value of a decimal, as a rational number. -/
def Dec.toRat (d : Dec) : ℚ := (d.m : ℚ) / (10 : ℚ) ^ d.e

/-- A decimal is numerically zero exactly when its coefficient is zero. -/
def Dec.isZero (d : Dec) : Bool := d.m = 0

/-- A decimal is numerically negative exactly when its coefficient is. -/
def Dec.isNeg (d : Dec) : Bool := d.m < 0

theorem Dec.toRat_neg_iff (d : Dec) : d.toRat < 0 ↔ d.m < 0 := by
  unfold Dec.toRat
  rw [div_neg_iff]
  constructor
  · rintro (⟨h, hp⟩ | ⟨h, _⟩)
    · exact absurd hp (not_lt.mpr (by positivity))
    · exact_mod_cast h
  · intro h
    exact Or.inr ⟨by exact_mod_cast h, by positivity⟩

theorem Dec.toRat_zero_iff (d : Dec) : d.toRat = 0 ↔ d.m = 0 := by
  unfold Dec.toRat
  rw [div_eq_zero_iff]
  constructor
  · rintro (h | h)
    · exact_mod_cast h
    · exact absurd h (by positivity)
  · intro h; exact Or.inl (by exact_mod_cast h)

/-! ### Digit strings

Machinery for rendering and parsing the plain decimal notation used by
`str(Decimal)` and accepted by the `Decimal` constructor: an optional
minus sign, an integer digit group, and an optional fractional digit
group after one decimal point.  (Python falls back to scientific
notation for large adjusted exponents; the model normalises those cases
to plain digit strings, which does not affect any round-trip fact.) -/

/-- Little-endian base-10 digits of `n`; the first argument is recursion
fuel, which is sufficient whenever `n ≤ fuel`.  `0` has no digits. -/
def digitsLEAux : Nat → Nat → List Nat
  | 0, _ => []
  | fuel + 1, n => if n = 0 then [] else n % 10 :: digitsLEAux fuel (n / 10)

/-- Little-endian base-10 digits of `n` (empty for `0`). -/
def natDigitsLE (n : Nat) : List Nat := digitsLEAux n n

/-- Value of a little-endian digit list. -/
def ofDigitsLE (ds : List Nat) : Nat := ds.foldr (fun d acc => 10 * acc + d) 0

/-- Value of a most-significant-first digit list. -/
def valMSB (ds : List Nat) : Nat := ds.foldl (fun acc d => 10 * acc + d) 0

theorem ofDigitsLE_digitsLEAux (fuel : Nat) :
    ∀ n : Nat, n ≤ fuel → ofDigitsLE (digitsLEAux fuel n) = n := by
  induction fuel with
  | zero => intro n hn; interval_cases n; rfl
  | succ fuel ih =>
    intro n hn
    by_cases h0 : n = 0
    · subst h0; simp [digitsLEAux, ofDigitsLE]
    · have hdiv : n / 10 ≤ fuel := by
        have : n / 10 < n := Nat.div_lt_self (Nat.pos_of_ne_zero h0) (by norm_num)
        omega
      simp only [digitsLEAux, if_neg h0]
      have := ih (n / 10) hdiv
      simp only [ofDigitsLE] at this ⊢
      simp only [List.foldr_cons, this]
      omega

theorem digitsLEAux_lt_ten (fuel : Nat) :
    ∀ n d : Nat, d ∈ digitsLEAux fuel n → d < 10 := by
  induction fuel with
  | zero => intro n d hd; simp [digitsLEAux] at hd
  | succ fuel ih =>
    intro n d hd
    by_cases h0 : n = 0
    · subst h0; simp [digitsLEAux] at hd
    · simp only [digitsLEAux, if_neg h0, List.mem_cons] at hd
      rcases hd with h | h
      · subst h; exact Nat.mod_lt _ (by norm_num)
      · exact ih _ _ h

theorem valMSB_reverse (ds : List Nat) : valMSB ds.reverse = ofDigitsLE ds := by
  unfold valMSB ofDigitsLE
  rw [List.foldl_reverse]

theorem valMSB_replicate_zero_append (k : Nat) (ds : List Nat) :
    valMSB (List.replicate k 0 ++ ds) = valMSB ds := by
  induction k with
  | zero => simp
  | succ k ih =>
    simp only [List.replicate_succ, List.cons_append]
    unfold valMSB at ih ⊢
    simpa using ih

/-- Most-significant-first digits of `n`, left-padded with zeros to at
least `w` digits (so that a scale-`w - 1` decimal point can always be
inserted).  `decDigitsPadded 5 3 = [0, 0, 5]`. -/
def decDigitsPadded (n w : Nat) : List Nat :=
  let ds := (natDigitsLE n).reverse
  List.replicate (w - ds.length) 0 ++ ds

theorem valMSB_decDigitsPadded (n w : Nat) : valMSB (decDigitsPadded n w) = n := by
  unfold decDigitsPadded
  rw [valMSB_replicate_zero_append, valMSB_reverse]
  exact ofDigitsLE_digitsLEAux n n le_rfl

theorem decDigitsPadded_length (n w : Nat) :
    (decDigitsPadded n w).length = max w (natDigitsLE n).reverse.length := by
  unfold decDigitsPadded
  simp [List.length_append, List.length_replicate]
  omega

theorem decDigitsPadded_lt_ten (n w : Nat) :
    ∀ d ∈ decDigitsPadded n w, d < 10 := by
  intro d hd
  unfold decDigitsPadded at hd
  rcases List.mem_append.mp hd with h | h
  · have := List.eq_of_mem_replicate h
    omega
  · exact digitsLEAux_lt_ten n n d (List.mem_reverse.mp h)

/-- The character for a single digit value. -/
def digitChar (d : Nat) : Char := Char.ofNat (48 + d)

/-- Inverse of `digitChar` on digit characters; `none` elsewhere. -/
def charToDigit (c : Char) : Option Nat :=
  if 48 ≤ c.toNat ∧ c.toNat ≤ 57 then some (c.toNat - 48) else none

theorem charToDigit_digitChar (d : Nat) (hd : d < 10) :
    charToDigit (digitChar d) = some d := by
  interval_cases d <;> decide

theorem digitChar_ne_dot (d : Nat) (hd : d < 10) : digitChar d ≠ '.' := by
  interval_cases d <;> decide

theorem digitChar_ne_minus (d : Nat) (hd : d < 10) : digitChar d ≠ '-' := by
  interval_cases d <;> decide

/-- Parse a list of characters as digit values; `none` if any character
is not a digit. -/
def mapDigits : List Char → Option (List Nat)
  | [] => some []
  | c :: cs =>
    match charToDigit c, mapDigits cs with
    | some d, some ds => some (d :: ds)
    | _, _ => none

theorem mapDigits_map_digitChar (ds : List Nat) (h : ∀ d ∈ ds, d < 10) :
    mapDigits (ds.map digitChar) = some ds := by
  induction ds with
  | nil => rfl
  | cons d ds ih =>
    simp only [List.map_cons, mapDigits]
    rw [charToDigit_digitChar d (h d (.head ds)), ih (fun x hx => h x (.tail d hx))]

/-- Split a character list at the first decimal point.  Returns the
characters before the point and, when a point is present, those after
it. -/
def splitDot : List Char → List Char × Option (List Char)
  | [] => ([], none)
  | c :: cs =>
    if c = '.' then ([], some cs)
    else
      let p := splitDot cs
      (c :: p.1, p.2)

theorem splitDot_no_dot (a : List Char) (ha : '.' ∉ a) : splitDot a = (a, none) := by
  induction a with
  | nil => rfl
  | cons c cs ih =>
    have hc : c ≠ '.' := fun h => ha (h ▸ List.mem_cons_self c cs)
    simp only [splitDot, if_neg hc]
    rw [ih (fun h => ha (List.mem_cons_of_mem c h))]

theorem splitDot_append_dot (a b : List Char) (ha : '.' ∉ a) :
    splitDot (a ++ '.' :: b) = (a, some b) := by
  induction a with
  | nil => simp [splitDot]
  | cons c cs ih =>
    have hc : c ≠ '.' := fun h => ha (h ▸ List.mem_cons_self c cs)
    simp only [List.cons_append, splitDot, if_neg hc, List.append_eq]
    rw [ih (fun h => ha (List.mem_cons_of_mem c h))]


/-- Parse an integer digit group with no decimal point. -/
def parseNoDot (ip : List Char) : Option (Nat × Nat) :=
  if ip.isEmpty then none
  else (mapDigits ip).map fun ds => (valMSB ds, 0)

/-- Parse an integer digit group and a fractional digit group. -/
def parseWithDot (ip fp : List Char) : Option (Nat × Nat) :=
  if ip.isEmpty || fp.isEmpty then none
  else
    match mapDigits (ip ++ fp) with
    | some ds => some (valMSB ds, fp.length)
    | none => none

/-- Parse an unsigned plain decimal digit string, returning the coefficient
value and the scale (number of fractional digits). -/
def parseUnsigned (cs : List Char) : Option (Nat × Nat) :=
  match splitDot cs with
  | (ip, none) => parseNoDot ip
  | (ip, some fp) => parseWithDot ip fp

/-- Parse a signed plain decimal character list. -/
def parseChars : List Char → Option Dec
  | [] => none
  | c :: rest =>
    if c = '-' then (parseUnsigned rest).map fun p => ⟨-(p.1 : Int), p.2⟩
    else (parseUnsigned (c :: rest)).map fun p => ⟨(p.1 : Int), p.2⟩

/-- Modelled from the spec: the `Decimal` constructor applied to a raw
string, as used by operand validation and by history loading.  Accepts
the plain decimal notation that `decToString` emits; anything else is
rejected (`InvalidOperation` in Python). -/
def parseDec (s : String) : Option Dec := parseChars s.data

/-- Digit-group body of a rendered decimal: the padded coefficient digits
with a decimal point inserted before the last `e` of them when `e > 0`. -/
def decBody (ds : List Nat) (e : Nat) : List Char :=
  if e = 0 then ds.map digitChar
  else (ds.take (ds.length - e)).map digitChar
       ++ '.' :: (ds.drop (ds.length - e)).map digitChar

/-- Render a decimal the way `str(Decimal)` does for plain (non-scientific)
notation: coefficient digits padded to at least `e + 1` places, a decimal
point before the last `e` digits when `e > 0`, and a leading minus sign
for a negative coefficient. -/
def decToChars (d : Dec) : List Char :=
  if d.m < 0 then '-' :: decBody (decDigitsPadded d.m.natAbs (d.e + 1)) d.e
  else decBody (decDigitsPadded d.m.natAbs (d.e + 1)) d.e

/-- Modelled from the spec: serialization renders operands and results as
their decimal string representations (`str(Decimal)`). -/
def decToString (d : Dec) : String := ⟨decToChars d⟩

theorem parseUnsigned_decBody (ds : List Nat) (e : Nat)
    (h10 : ∀ x ∈ ds, x < 10) (hlen : e + 1 ≤ ds.length) :
    parseUnsigned (decBody ds e) = some (valMSB ds, e) := by
  have hne : ds ≠ [] := by
    intro h; rw [h] at hlen; simp at hlen
  by_cases he : e = 0
  · subst he
    have hdot : '.' ∉ ds.map digitChar := by
      intro h
      rcases List.mem_map.mp h with ⟨x, hx, hxe⟩
      exact digitChar_ne_dot x (h10 x hx) hxe
    unfold decBody
    rw [if_pos rfl]
    unfold parseUnsigned
    rw [splitDot_no_dot _ hdot]
    show parseNoDot (ds.map digitChar) = _
    unfold parseNoDot
    rw [if_neg (by simpa [List.isEmpty_iff] using hne)]
    rw [mapDigits_map_digitChar ds h10]
    rfl
  · have htake : ∀ x ∈ ds.take (ds.length - e), x < 10 :=
      fun x hx => h10 x (List.take_subset _ _ hx)
    have htlen : (ds.take (ds.length - e)).length = ds.length - e := by
      rw [List.length_take]; omega
    have hdlen : (ds.drop (ds.length - e)).length = e := by
      rw [List.length_drop]; omega
    have htne : ds.take (ds.length - e) ≠ [] := by
      intro h; rw [h] at htlen; simp at htlen; omega
    have hdne : ds.drop (ds.length - e) ≠ [] := by
      intro h; rw [h] at hdlen; simp at hdlen; omega
    have hdot : '.' ∉ (ds.take (ds.length - e)).map digitChar := by
      intro h
      rcases List.mem_map.mp h with ⟨x, hx, hxe⟩
      exact digitChar_ne_dot x (htake x hx) hxe
    unfold decBody
    rw [if_neg he]
    unfold parseUnsigned
    rw [splitDot_append_dot _ _ hdot]
    show parseWithDot ((ds.take (ds.length - e)).map digitChar)
      ((ds.drop (ds.length - e)).map digitChar) = _
    obtain ⟨x, xs, hx⟩ := List.exists_cons_of_ne_nil htne
    obtain ⟨y, ys, hy⟩ := List.exists_cons_of_ne_nil hdne
    unfold parseWithDot
    rw [if_neg (by rw [hx, hy]; simp)]
    rw [← List.map_append, List.take_append_drop,
      mapDigits_map_digitChar ds h10]
    have hlm : ds.length - (ds.length - e) = e := by omega
    rw [List.length_map, List.length_drop, hlm]

theorem decBody_head_ne_minus (ds : List Nat) (e : Nat)
    (h10 : ∀ x ∈ ds, x < 10) (hlen : e + 1 ≤ ds.length) :
    ∃ c rest, decBody ds e = c :: rest ∧ c ≠ '-' := by
  have hne : ds ≠ [] := by
    intro h; rw [h] at hlen; simp at hlen
  by_cases he : e = 0
  · subst he
    obtain ⟨x, xs, hx⟩ := List.exists_cons_of_ne_nil hne
    refine ⟨digitChar x, xs.map digitChar, ?_, ?_⟩
    · unfold decBody; rw [if_pos rfl, hx]; rfl
    · exact digitChar_ne_minus x (h10 x (by rw [hx]; exact List.mem_cons_self x xs))
  · have htlen : (ds.take (ds.length - e)).length = ds.length - e := by
      rw [List.length_take]; omega
    have htne : ds.take (ds.length - e) ≠ [] := by
      intro h; rw [h] at htlen; simp at htlen; omega
    obtain ⟨x, xs, hx⟩ := List.exists_cons_of_ne_nil htne
    refine ⟨digitChar x,
      xs.map digitChar ++ '.' :: (ds.drop (ds.length - e)).map digitChar, ?_, ?_⟩
    · unfold decBody; rw [if_neg he, hx]; rfl
    · exact digitChar_ne_minus x
        (h10 x (List.take_subset _ _ (by rw [hx]; exact List.mem_cons_self x xs)))

/-- Printing a decimal and parsing it back is the identity: the model's
plain decimal notation is lossless, including scale and sign. -/
theorem parseChars_decToChars (d : Dec) : parseChars (decToChars d) = some d := by
  obtain ⟨m, e⟩ := d
  have h10 : ∀ x ∈ decDigitsPadded m.natAbs (e + 1), x < 10 :=
    decDigitsPadded_lt_ten m.natAbs (e + 1)
  have hlen : e + 1 ≤ (decDigitsPadded m.natAbs (e + 1)).length := by
    rw [decDigitsPadded_length]; omega
  have hbody : parseUnsigned (decBody (decDigitsPadded m.natAbs (e + 1)) e) =
      some (m.natAbs, e) := by
    rw [parseUnsigned_decBody _ _ h10 hlen, valMSB_decDigitsPadded]
  by_cases hm : m < 0
  · unfold decToChars
    rw [if_pos hm]
    simp only [parseChars, if_true]
    rw [hbody]
    simp only [Option.map_some']
    have : ((m.natAbs : Int)) = -m := by omega
    simp [this]
  · obtain ⟨c, rest, hcr, hcne⟩ := decBody_head_ne_minus _ _ h10 hlen
    unfold decToChars
    rw [if_neg hm, hcr]
    simp only [parseChars]
    rw [if_neg hcne, ← hcr, hbody]
    simp only [Option.map_some']
    have : ((m.natAbs : Int)) = m := by omega
    simp [this]

/-- String-level round trip for the persistence serialization. -/
theorem parseDec_decToString (d : Dec) : parseDec (decToString d) = some d := by
  unfold parseDec decToString
  exact parseChars_decToChars d

/-! ### Decimal arithmetic

Modelled from the spec: all numeric work uses arbitrary-precision decimal
arithmetic under Python's default decimal context.  Addition, subtraction
and multiplication are exact; `//` and `%` use truncated (toward-zero)
quotient semantics; `/` rounds to 28 significant digits with half-even
rounding. -/

/-- Exact decimal addition; the result scale is the larger operand scale,
as in `Decimal` addition. -/
def decAdd (a b : Dec) : Dec :=
  ⟨a.m * (10 : Int) ^ (max a.e b.e - a.e) + b.m * (10 : Int) ^ (max a.e b.e - b.e),
   max a.e b.e⟩

/-- Exact decimal negation. -/
def decNeg (a : Dec) : Dec := ⟨-a.m, a.e⟩

/-- Exact decimal subtraction. -/
def decSub (a b : Dec) : Dec := decAdd a (decNeg b)

/-- Exact decimal multiplication. -/
def decMul (a b : Dec) : Dec := ⟨a.m * b.m, a.e + b.e⟩

/-- Exact decimal absolute value. -/
def decAbs (a : Dec) : Dec := ⟨|a.m|, a.e⟩

/-- Truncated (toward-zero) integer division, the semantics of `//` on
`Decimal` operands: the magnitude is the floor of the magnitude quotient
and the sign is the sign of the exact quotient. -/
def intTdiv (A B : Int) : Int :=
  if (0 ≤ A) = (0 ≤ B) then (A.natAbs / B.natAbs : Nat)
  else -((A.natAbs / B.natAbs : Nat) : Int)

/-- Decimal `//`: both operands are scaled to a common integer
representation and the quotient is truncated toward zero. -/
def decIntDiv (a b : Dec) : Dec :=
  ⟨intTdiv (a.m * (10 : Int) ^ b.e) (b.m * (10 : Int) ^ a.e), 0⟩

/-- Decimal `%`: the truncated remainder `a - (a // b) * b`, whose sign
follows the dividend, as in `Decimal` modulo. -/
def decMod (a b : Dec) : Dec := decSub a (decMul (decIntDiv a b) b)

/-- The integer value of an integer-valued decimal, `none` when the
decimal has a fractional part. -/
def decToInt (d : Dec) : Option Int :=
  if (10 : Int) ^ d.e ∣ d.m then some (d.m / (10 : Int) ^ d.e) else none

/-- Decimal exponentiation for a non-negative integer exponent, computed
exactly.  A non-integral exponent is delegated to an external
transcendental routine in the implementation; its value is outside this
model's scope (no specification sentence constrains it) and is modelled
by the flag value `0`. -/
def decPow (a b : Dec) : Dec :=
  match decToInt b with
  | some n => if 0 ≤ n then ⟨a.m ^ n.toNat, a.e * n.toNat⟩ else ⟨0, 0⟩
  | none => ⟨0, 0⟩

/-- Number of significant digits of `n`. -/
def numDigits (n : Nat) : Nat := (natDigitsLE n).length

/-- Round `A / B` to the nearest integer, ties to even (the decimal
context's ROUND_HALF_EVEN). -/
def roundHalfEven (A B : Nat) : Nat :=
  let q := A / B
  let r := A % B
  if 2 * r < B then q
  else if B < 2 * r then q + 1
  else if q % 2 = 0 then q else q + 1

/-- Decimal `/` under the default context: the quotient correctly rounded
to 28 significant digits, half-even.  (Python additionally shortens exact
quotients to an ideal exponent; that only changes the retained scale, not
the numeric value.) -/
def decDiv (a b : Dec) : Dec :=
  let A : Int := a.m * (10 : Int) ^ b.e
  let B : Int := b.m * (10 : Int) ^ a.e
  if A = 0 ∨ B = 0 then ⟨0, 0⟩ else
  let An := A.natAbs
  let Bn := B.natAbs
  let d : Int := (numDigits An : Int) - (numDigits Bn : Int)
  let adj : Int := if An * 10 ^ numDigits Bn < Bn * 10 ^ numDigits An then d - 1 else d
  let s : Int := 27 - adj
  let c : Nat :=
    if 0 ≤ s then roundHalfEven (An * 10 ^ s.toNat) Bn
    else roundHalfEven An (Bn * 10 ^ (-s).toNat)
  let c2 := if c = 10 ^ 28 then 10 ^ 27 else c
  let s2 := if c = 10 ^ 28 then s - 1 else s
  let sign : Int := if (0 ≤ A) = (0 ≤ B) then 1 else -1
  if 0 ≤ s2 then ⟨sign * c2, s2.toNat⟩
  else ⟨sign * c2 * (10 : Int) ^ (-s2).toNat, 0⟩

/-- The decimal constant `100`, used by the percentage operation. -/
def decHundred : Dec := ⟨100, 0⟩

/-- The `n`-th root value delegated by the implementation to binary
floating point (`pow(float(a), 1 / float(b))`).  Floating-point rounding
is outside the decimal model; no specification sentence or claim
constrains the numeric value, so it is modelled by the flag value `0`.
Only the root operations' domain checks, which are fully modelled, are
referenced by the specification. -/
def decRootValue (_a _b : Dec) : Dec := ⟨0, 0⟩

/-! ### Error taxonomy and the operation strategy set -/

deriving instance DecidableEq for Except

/-- Modelled from the spec: the error taxonomy of `app/exceptions.py`.
`validationError` is a malformed operand or an operation domain
violation; `operationError` is structural misuse or an I/O or
serialization failure (and the error the `Calculation` record
constructor raises); `unknownOperation` is the factory's failure for an
unregistered name (observed as a `ValueError` in the tests). -/
inductive CalcError where
  | validationError (msg : String)
  | operationError (msg : String)
  | unknownOperation (msg : String)
deriving DecidableEq, Repr

/-- The ten built-in operation kinds of `app/operations.py`. -/
inductive OpKind where
  | addition
  | subtraction
  | multiplication
  | division
  | power
  | root
  | modulus
  | integerDivision
  | percentage
  | absoluteDifference
deriving DecidableEq, Repr

/-- The class name of an operation strategy, which `str(operation)`
returns and which names the operation in persisted rows. -/
def opName : OpKind → String
  | .addition => "Addition"
  | .subtraction => "Subtraction"
  | .multiplication => "Multiplication"
  | .division => "Division"
  | .power => "Power"
  | .root => "Root"
  | .modulus => "Modulus"
  | .integerDivision => "IntegerDivision"
  | .percentage => "Percentage"
  | .absoluteDifference => "AbsoluteDifference"

/-- Modelled from the spec: `execute(a, b)` of each operation strategy in
`app/operations.py`.  Each strategy validates its own domain and raises a
`ValidationError` on a violation, with the message the specification and
`tests/test_operations.py` pin down.  `IntegerDivision` uses the
truncated `Decimal` `//` semantics that `tests/test_operations.py`
asserts (`-10 // 3 == -3`, `-10 // -3 == 3`). -/
def Operation.execute : OpKind → Dec → Dec → Except CalcError Dec
  | .addition, a, b => .ok (decAdd a b)
  | .subtraction, a, b => .ok (decSub a b)
  | .multiplication, a, b => .ok (decMul a b)
  | .division, a, b =>
    if b.m = 0 then .error (.validationError "Division by zero is not allowed")
    else .ok (decDiv a b)
  | .power, a, b =>
    if b.m < 0 then .error (.validationError "Negative exponents not supported")
    else .ok (decPow a b)
  | .root, a, b =>
    if b.m = 0 then .error (.validationError "Zero root is undefined")
    else if a.m < 0 then .error (.validationError "Cannot calculate root of negative number")
    else .ok (decRootValue a b)
  | .modulus, a, b =>
    if b.m = 0 then .error (.validationError "Modulus by zero is not allowed")
    else .ok (decMod a b)
  | .integerDivision, a, b =>
    if b.m = 0 then .error (.validationError "Division by zero is not allowed")
    else .ok (decIntDiv a b)
  | .percentage, a, b =>
    if b.m = 0 then .error (.validationError "Cannot calculate percentage with zero denominator")
    else .ok (decMul (decDiv a b) decHundred)
  | .absoluteDifference, a, b => .ok (decAbs (decSub a b))

/-- Modelled from the spec: the factory registry of `app/operations.py`,
seeded at startup with the ten built-in kinds under their lower-case
registration names. -/
def operationRegistry : List (String × OpKind) :=
  [("add", .addition),
   ("subtract", .subtraction),
   ("multiply", .multiplication),
   ("divide", .division),
   ("power", .power),
   ("root", .root),
   ("modulus", .modulus),
   ("intdiv", .integerDivision),
   ("percentage", .percentage),
   ("absdiff", .absoluteDifference)]

/-- ASCII lower-casing of one character, as `str.lower()` acts on the
operation names in use. -/
def lowerChar (c : Char) : Char :=
  if 65 ≤ c.toNat ∧ c.toNat ≤ 90 then Char.ofNat (c.toNat + 32) else c

/-- ASCII lower-casing of a name (`name.lower()`). -/
def strToLower (s : String) : String := ⟨s.data.map lowerChar⟩

/-- Modelled from the spec: `OperationFactory.create_operation(name)`,
a case-insensitive lookup that fails for an unregistered name (the
`UnknownOperationError` of the specification's taxonomy, raised as
`ValueError("Unknown operation: ...")` in the tests). -/
def OperationFactory.create_operation (name : String) : Except CalcError OpKind :=
  match operationRegistry.lookup (strToLower name) with
  | some k => .ok k
  | none => .error (.unknownOperation ("Unknown operation: " ++ name))

/-! ### Calculation records -/

/-- Modelled from the spec: an immutable Calculation Record holding one
operation's name, operands, result and timestamp.  The timestamp is kept
as its ISO-8601 string, which serialization preserves verbatim;
structural equality of records in the implementation excludes it. -/
structure Calculation where
  operation : String
  operand1 : Dec
  operand2 : Dec
  result : Dec
  timestamp : String
deriving DecidableEq, Repr

/-- Structural equality of records as `Calculation.__eq__` defines it:
operation, operands and result, excluding the timestamp. -/
def Calculation.eqv (c₁ c₂ : Calculation) : Bool :=
  c₁.operation = c₂.operation ∧ c₁.operand1 = c₂.operand1 ∧
    c₁.operand2 = c₂.operand2 ∧ c₁.result = c₂.result

/-- The root-domain failure helper of `app/calculation.py`: the zero-index
check precedes the negative-radicand check, and an otherwise invalid pair
(the `x = 0, y < 0` corner `tests/test_calculation.py` exercises) falls to
a generic final raise.  All three raise `OperationError`. -/
def raiseInvalidRoot (x y : Dec) : CalcError :=
  if y.m = 0 then .operationError "Zero root is undefined"
  else if x.m < 0 then .operationError "Cannot calculate root of negative number"
  else .operationError "Invalid root operation"

/-- Modelled from the spec: the result computation the `Calculation`
record performs at construction time in `app/calculation.py`, keyed by
the human-readable operation name.  Unlike the operation strategies, a
domain violation here raises `OperationError`, and the Power message
reads "Negative exponents are not supported" (`tests/test_calculation.py`),
not the strategies' "Negative exponents not supported". -/
def calcCompute (op : String) (x y : Dec) : Except CalcError Dec :=
  if op = "Addition" then .ok (decAdd x y)
  else if op = "Subtraction" then .ok (decSub x y)
  else if op = "Multiplication" then .ok (decMul x y)
  else if op = "Division" then
    if y.m = 0 then .error (.operationError "Division by zero is not allowed")
    else .ok (decDiv x y)
  else if op = "Power" then
    if y.m < 0 then .error (.operationError "Negative exponents are not supported")
    else .ok (decPow x y)
  else if op = "Root" then
    if 0 ≤ x.m ∧ y.m ≠ 0 ∧ ¬(x.m = 0 ∧ y.m < 0) then .ok (decRootValue x y)
    else .error (raiseInvalidRoot x y)
  else if op = "Modulus" then
    if y.m = 0 then .error (.operationError "Modulus by zero is not allowed")
    else .ok (decMod x y)
  else if op = "IntegerDivision" then
    if y.m = 0 then .error (.operationError "Division by zero is not allowed")
    else .ok (decIntDiv x y)
  else if op = "Percentage" then
    if y.m = 0 then .error (.operationError "Cannot calculate percentage with zero denominator")
    else .ok (decMul (decDiv x y) decHundred)
  else if op = "AbsoluteDifference" then .ok (decAbs (decSub x y))
  else .error (.operationError ("Unknown operation: " ++ op))

/-! ### The history engine -/

/-- Modelled from the spec: the mutable state of the `Calculator` engine —
the bound operation strategy, the ordered history of Calculation Records,
and the undo and redo stacks of mementos.  A memento owns a full copy of
the history sequence at capture time; its own timestamp is never observed
by any engine operation and is omitted.  Stacks grow at the head. -/
structure CalcState where
  operation_strategy : Option OpKind
  history : List Calculation
  undo_stack : List (List Calculation)
  redo_stack : List (List Calculation)
deriving DecidableEq, Repr

/-- The engine's state at construction: empty history, empty stacks, no
operation bound. -/
def initialState : CalcState := ⟨none, [], [], []⟩

/-- `set_operation`: pure assignment, no validation. -/
def setOperation (s : CalcState) (k : OpKind) : CalcState :=
  { s with operation_strategy := some k }

/-- Evict the oldest record when the history exceeds the configured
maximum size. -/
def evictOldest (maxSize : Nat) (h : List Calculation) : List Calculation :=
  if maxSize < h.length then h.drop 1 else h

/-- Modelled from the spec: `perform_operation(a, b)`.  Fails with
`OperationError` "No operation set" when no strategy is bound; parses the
raw operands, failing with `ValidationError` when either is not a valid
decimal; invokes the bound operation, propagating its `ValidationError`;
on success captures a memento of the prior history onto the undo stack,
clears the redo stack, appends the new Calculation Record (with the
supplied current timestamp), evicts the oldest record past the maximum
size, and returns the result.  All failures happen before any mutation,
so the error branches return the state unchanged. -/
def perform (maxSize : Nat) (s : CalcState) (ts aRaw bRaw : String) :
    Except CalcError Dec × CalcState :=
  match s.operation_strategy with
  | none => (.error (.operationError "No operation set"), s)
  | some k =>
    match parseDec aRaw with
    | none => (.error (.validationError ("Invalid number format: " ++ aRaw)), s)
    | some a =>
      match parseDec bRaw with
      | none => (.error (.validationError ("Invalid number format: " ++ bRaw)), s)
      | some b =>
        match Operation.execute k a b with
        | .error err => (.error err, s)
        | .ok r =>
          (.ok r,
           { operation_strategy := s.operation_strategy,
             history := evictOldest maxSize (s.history ++ [⟨opName k, a, b, r, ts⟩]),
             undo_stack := s.history :: s.undo_stack,
             redo_stack := [] })

/-- Modelled from the spec: `undo()` returns `false` and leaves the state
unchanged when the undo stack is empty; otherwise it pushes the current
history onto the redo stack and restores the popped memento. -/
def undo (s : CalcState) : Bool × CalcState :=
  match s.undo_stack with
  | [] => (false, s)
  | m :: rest =>
    (true, { s with history := m, undo_stack := rest,
                    redo_stack := s.history :: s.redo_stack })

/-- Modelled from the spec: `redo()`, the mirror of `undo` on the redo
stack. -/
def redo (s : CalcState) : Bool × CalcState :=
  match s.redo_stack with
  | [] => (false, s)
  | m :: rest =>
    (true, { s with history := m, redo_stack := rest,
                    undo_stack := s.history :: s.undo_stack })

/-- Modelled from the spec: `clear_history()` empties the history and both
stacks unconditionally. -/
def clearHistory (s : CalcState) : CalcState :=
  { s with history := [], undo_stack := [], redo_stack := [] }

/-- A sequence of engine steps, each binding a strategy and performing one
calculation with the given timestamp and raw operands; fails as soon as
one `perform` fails. -/
def performSeq (maxSize : Nat) :
    CalcState → List (OpKind × String × String × String) → Except CalcError CalcState
  | s, [] => .ok s
  | s, (k, ts, a, b) :: rest =>
    match perform maxSize (setOperation s k) ts a b with
    | (.ok _, s') => performSeq maxSize s' rest
    | (.error e, _) => .error e

/-! ### The persistence adapter -/

/-- One row of the persisted tabular format: the five columns
`operation, operand1, operand2, result, timestamp`, all as strings. -/
structure CalcRow where
  operation : String
  operand1 : String
  operand2 : String
  result : String
  timestamp : String
deriving DecidableEq, Repr

/-- The persisted tabular file: the mandatory header row and the data
rows in history order. -/
structure HistoryFile where
  header : List String
  rows : List CalcRow
deriving DecidableEq, Repr

/-- The mandatory column header of the persisted format. -/
def headerColumns : List String :=
  ["operation", "operand1", "operand2", "result", "timestamp"]

/-- `Calculation.to_dict`: one record serialized to its row of string
fields. -/
def Calculation.to_dict (c : Calculation) : CalcRow :=
  ⟨c.operation, decToString c.operand1, decToString c.operand2,
   decToString c.result, c.timestamp⟩

/-- Modelled from the spec: `save_history()` serializes every record to a
tabular row and writes the header plus the rows; an empty history
produces a file containing only the column header. -/
def save_history (h : List Calculation) : HistoryFile :=
  ⟨headerColumns, h.map Calculation.to_dict⟩

/-- Modelled from the spec: `Calculation.from_dict` on one row — parse the
operand and result strings, recompute the result from the operation name
and operands (a stored result that differs is logged and corrected in
memory to the recomputed one), and fail with `OperationError` on any
parse or computation fault. -/
def Calculation.from_dict (r : CalcRow) : Except CalcError Calculation :=
  match parseDec r.operand1, parseDec r.operand2, parseDec r.result with
  | some o1, some o2, some _stored =>
    match calcCompute r.operation o1 o2 with
    | .ok res => .ok ⟨r.operation, o1, o2, res, r.timestamp⟩
    | .error _ => .error (.operationError "Invalid calculation data")
  | _, _, _ => .error (.operationError "Invalid calculation data")

/-- Parse every row in order, failing on the first bad row. -/
def loadRows : List CalcRow → Except CalcError (List Calculation)
  | [] => .ok []
  | r :: rs =>
    match Calculation.from_dict r, loadRows rs with
    | .ok c, .ok cs => .ok (c :: cs)
    | .error e, _ => .error e
    | _, .error e => .error e

/-- Modelled from the spec: `load_history()` — a missing file or a file
with only the header yields the empty history; otherwise each row is
parsed into a Calculation Record, and any parse fault is wrapped as
`OperationError` "Failed to load history". -/
def load_history (f : HistoryFile) : Except CalcError (List Calculation) :=
  match loadRows f.rows with
  | .ok cs => .ok cs
  | .error _ => .error (.operationError "Failed to load history")

/-! ### Engine lemmas -/

theorem perform_ok_inv (maxSize : Nat) (s : CalcState) (ts aRaw bRaw : String)
    (r : Dec) (s' : CalcState)
    (h : perform maxSize s ts aRaw bRaw = (.ok r, s')) :
    ∃ k a b, s.operation_strategy = some k ∧ parseDec aRaw = some a ∧
      parseDec bRaw = some b ∧ Operation.execute k a b = .ok r ∧
      s' = { operation_strategy := s.operation_strategy,
             history := evictOldest maxSize (s.history ++ [⟨opName k, a, b, r, ts⟩]),
             undo_stack := s.history :: s.undo_stack,
             redo_stack := [] } := by
  unfold perform at h
  split at h
  · simp at h
  · split at h
    · simp at h
    · split at h
      · simp at h
      · split at h
        · simp at h
        · simp only [Prod.mk.injEq, Except.ok.injEq] at h
          obtain ⟨hr, hs⟩ := h
          subst hr
          exact ⟨_, _, _, by assumption, by assumption, by assumption, by assumption, hs.symm⟩

theorem perform_error_state (maxSize : Nat) (s : CalcState) (ts aRaw bRaw : String)
    (e : CalcError) (s' : CalcState)
    (h : perform maxSize s ts aRaw bRaw = (.error e, s')) : s' = s := by
  unfold perform at h
  split at h
  · exact (Prod.mk.injEq .. ▸ h).2.symm
  · split at h
    · exact (Prod.mk.injEq .. ▸ h).2.symm
    · split at h
      · exact (Prod.mk.injEq .. ▸ h).2.symm
      · split at h
        · exact (Prod.mk.injEq .. ▸ h).2.symm
        · simp at h

theorem performSeq_undo_stack_ne (maxSize : Nat) :
    ∀ (inputs : List (OpKind × String × String × String)) (s0 s : CalcState),
      inputs ≠ [] → performSeq maxSize s0 inputs = .ok s → s.undo_stack ≠ [] := by
  intro inputs
  induction inputs with
  | nil => intro s0 s hne _; exact absurd rfl hne
  | cons x rest ih =>
    intro s0 s _ h
    obtain ⟨k, ts, a, b⟩ := x
    unfold performSeq at h
    split at h
    · rename_i r s1 heq
      cases hr : rest with
      | nil =>
        subst hr
        unfold performSeq at h
        obtain ⟨_, _, _, _, _, _, _, hs⟩ :=
          perform_ok_inv maxSize (setOperation s0 k) ts a b r s1 heq
        cases h
        rw [hs]
        simp
      | cons y ys =>
        exact ih s1 s (by simp [hr]) h
    · cases h

/-! ### Claim theorems: the history state machine -/

/-- Claim C7: for every engine state whose undo stack is empty, `undo()`
returns `false` and leaves the history and both stacks unchanged;
symmetrically, for every state whose redo stack is empty, `redo()`
returns `false` and leaves the state unchanged. -/
theorem empty_stack_undo_redo_noop (s : CalcState) :
    (s.undo_stack = [] → undo s = (false, s)) ∧
    (s.redo_stack = [] → redo s = (false, s)) := by
  constructor
  · intro h
    unfold undo
    rw [h]
  · intro h
    unfold redo
    rw [h]

/-- Witness for C7 at the freshly constructed engine state. -/
theorem empty_stack_undo_redo_noop_witness :
    undo initialState = (false, initialState) ∧
    redo initialState = (false, initialState) :=
  ⟨(empty_stack_undo_redo_noop initialState).1 rfl,
   (empty_stack_undo_redo_noop initialState).2 rfl⟩

/-- Claim C8: every failing `perform` call (no operation bound, malformed
operand, or a domain violation such as division by zero) leaves the
engine state — history, undo stack and redo stack — unchanged: the
memento push and the history append happen only after successful
computation. -/
theorem perform_failure_preserves_state (maxSize : Nat) (s : CalcState)
    (ts aRaw bRaw : String) (e : CalcError) (s' : CalcState)
    (h : perform maxSize s ts aRaw bRaw = (.error e, s')) : s' = s :=
  perform_error_state maxSize s ts aRaw bRaw e s' h

/-- Witness for C8: `perform("5", "0")` with Division bound raises
`ValidationError` "Division by zero is not allowed" and the state — in
particular the empty history — is unchanged. -/
theorem perform_failure_preserves_state_witness :
    (perform 5 (setOperation initialState .division) "t0" "5" "0").2 =
      setOperation initialState .division ∧
    (perform 5 (setOperation initialState .division) "t0" "5" "0").1 =
      .error (.validationError "Division by zero is not allowed") ∧
    (setOperation initialState .division).history.length = 0 :=
  ⟨perform_failure_preserves_state 5 (setOperation initialState .division)
      "t0" "5" "0" (.validationError "Division by zero is not allowed") _
      (by decide),
   by decide, rfl⟩

/-- Claim C6: every successful `perform` call empties the redo stack, and
consequently an immediately following `redo()` returns `false` (in
particular after an undo followed by a successful perform). -/
theorem perform_clears_redo_stack (maxSize : Nat) (s : CalcState)
    (ts aRaw bRaw : String) (r : Dec) (s' : CalcState)
    (h : perform maxSize s ts aRaw bRaw = (.ok r, s')) :
    s'.redo_stack = [] ∧ redo s' = (false, s') := by
  obtain ⟨k, a, b, _, _, _, _, hs⟩ :=
    perform_ok_inv maxSize s ts aRaw bRaw r s' h
  have hr : s'.redo_stack = [] := by rw [hs]
  exact ⟨hr, by unfold redo; rw [hr]⟩

/-- A concrete record for witness states: 2 + 3 performed at "t0". -/
def recAdd23 : Calculation := ⟨"Addition", ⟨2, 0⟩, ⟨3, 0⟩, ⟨5, 0⟩, "t0"⟩

/-- A concrete record for witness states: 4 × 5 performed at "t1". -/
def recMul45 : Calculation := ⟨"Multiplication", ⟨4, 0⟩, ⟨5, 0⟩, ⟨20, 0⟩, "t1"⟩

/-- The engine state after performing 2 + 3 and 4 × 5 from a fresh
engine. -/
def twoPerformState : CalcState :=
  ⟨some .multiplication, [recAdd23, recMul45], [[recAdd23], []], []⟩

/-- The engine state after performing 2 + 3 and 4 × 5 and then undoing
once: the redo stack is nonempty. -/
def afterUndoState : CalcState :=
  ⟨some .multiplication, [recAdd23], [[]], [[recAdd23, recMul45]]⟩

/-- Witness for C6: a successful perform on a post-undo state (the
scenario of `test_new_operation_clears_redo_stack`) leaves an empty redo
stack and a refused redo. -/
theorem perform_clears_redo_stack_witness :
    (perform 5 afterUndoState "t2" "6" "7").2.redo_stack = [] ∧
    redo (perform 5 afterUndoState "t2" "6" "7").2 =
      (false, (perform 5 afterUndoState "t2" "6" "7").2) :=
  perform_clears_redo_stack 5 afterUndoState "t2" "6" "7" ⟨42, 0⟩ _ (by decide)

/-- Claim C3: after any nonempty sequence of successful `perform` calls,
`undo()` followed by `redo()` both succeed and restore the history to
exactly what it was immediately before the undo. -/
theorem undo_redo_restores_history (maxSize : Nat)
    (inputs : List (OpKind × String × String × String)) (s : CalcState)
    (hne : inputs ≠ [])
    (h : performSeq maxSize initialState inputs = .ok s) :
    (undo s).1 = true ∧ (redo (undo s).2).1 = true ∧
    (redo (undo s).2).2.history = s.history := by
  have hu : s.undo_stack ≠ [] :=
    performSeq_undo_stack_ne maxSize inputs initialState s hne h
  cases hus : s.undo_stack with
  | nil => exact absurd hus hu
  | cons m rest =>
    unfold undo
    rw [hus]
    exact ⟨rfl, by unfold redo; exact rfl, by unfold redo; exact rfl⟩

/-- Witness for C3 on a two-step perform sequence. -/
theorem undo_redo_restores_history_witness :
    (undo twoPerformState).1 = true ∧
    (redo (undo twoPerformState).2).1 = true ∧
    (redo (undo twoPerformState).2).2.history = twoPerformState.history :=
  undo_redo_restores_history 5
    [(.addition, "t0", "2", "3"), (.multiplication, "t1", "4", "5")]
    twoPerformState (by decide) (by decide)

theorem evictOldest_length (maxSize : Nat) (l : List Calculation) :
    (evictOldest maxSize l).length =
      if maxSize < l.length then l.length - 1 else l.length := by
  unfold evictOldest
  split <;> simp [List.length_drop]

theorem evictOldest_concat_getLast (maxSize : Nat) (hm : 1 ≤ maxSize)
    (l : List Calculation) (c : Calculation) :
    (evictOldest maxSize (l ++ [c])).getLast? = some c := by
  unfold evictOldest
  split
  · rename_i hlt
    have hl : 1 ≤ l.length := by
      simp only [List.length_append, List.length_singleton] at hlt
      omega
    rw [List.drop_append_of_le_length (by omega)]
    exact List.getLast?_concat _
  · exact List.getLast?_concat _

/-- Claim C4: every successful `perform` appends exactly one record — the
history length becomes `min (len + 1) maxSize`, with the oldest record
evicted when the maximum would be exceeded — and the last history entry
is the newly computed Calculation Record. -/
theorem perform_appends_record (maxSize : Nat) (s : CalcState)
    (ts aRaw bRaw : String) (r : Dec) (s' : CalcState)
    (hmax : 1 ≤ maxSize) (hlen : s.history.length ≤ maxSize)
    (h : perform maxSize s ts aRaw bRaw = (.ok r, s')) :
    s'.history.length = min (s.history.length + 1) maxSize ∧
    ∃ k a b, s.operation_strategy = some k ∧ parseDec aRaw = some a ∧
      parseDec bRaw = some b ∧
      s'.history.getLast? = some ⟨opName k, a, b, r, ts⟩ := by
  obtain ⟨k, a, b, hk, ha, hb, hx, hs⟩ :=
    perform_ok_inv maxSize s ts aRaw bRaw r s' h
  subst hs
  constructor
  · simp only [evictOldest_length, List.length_append, List.length_singleton]
    split_ifs <;> omega
  · exact ⟨k, a, b, hk, ha, hb, evictOldest_concat_getLast maxSize hmax _ _⟩

/-- Witness for C4 at `perform("2", "3")` with Addition bound on a fresh
engine. -/
theorem perform_appends_record_witness :
    (perform 5 (setOperation initialState .addition) "t0" "2" "3").2.history.length =
      min ((setOperation initialState .addition).history.length + 1) 5 ∧
    ∃ k a b, (setOperation initialState .addition).operation_strategy = some k ∧
      parseDec "2" = some a ∧ parseDec "3" = some b ∧
      (perform 5 (setOperation initialState .addition) "t0" "2" "3").2.history.getLast? =
        some ⟨opName k, a, b, ⟨5, 0⟩, "t0"⟩ :=
  perform_appends_record 5 (setOperation initialState .addition) "t0" "2" "3"
    ⟨5, 0⟩ _ (by decide) (by decide) (by decide)

/-! ### Claim theorems: persistence -/

theorem from_dict_to_dict (c : Calculation)
    (hc : calcCompute c.operation c.operand1 c.operand2 = .ok c.result) :
    Calculation.from_dict (Calculation.to_dict c) = .ok c := by
  obtain ⟨op, o1, o2, res, ts⟩ := c
  simp only at hc
  simp only [Calculation.to_dict, Calculation.from_dict, parseDec_decToString, hc]

theorem loadRows_map_to_dict (H : List Calculation)
    (hw : ∀ c ∈ H, calcCompute c.operation c.operand1 c.operand2 = .ok c.result) :
    loadRows (H.map Calculation.to_dict) = .ok H := by
  induction H with
  | nil => rfl
  | cons c cs ih =>
    simp only [List.map_cons, loadRows]
    rw [from_dict_to_dict c (hw c (List.mem_cons_self c cs)),
      ih (fun x hx => hw x (List.mem_cons_of_mem c hx))]

/-- Claim C5: saving any history whose stored results match their
recomputation (the Calculation Record invariant) and loading it back
returns an equal history — values and order preserved — and saving the
empty history produces a file with only the header row, which loads back
as the empty sequence without error. -/
theorem save_load_round_trip :
    (∀ H : List Calculation,
      (∀ c ∈ H, calcCompute c.operation c.operand1 c.operand2 = .ok c.result) →
      load_history (save_history H) = .ok H) ∧
    save_history [] = ⟨headerColumns, []⟩ ∧
    load_history (save_history []) = .ok [] := by
  refine ⟨?_, rfl, rfl⟩
  intro H hw
  simp only [load_history, save_history, loadRows_map_to_dict H hw]

/-- Witness for C5 on a one-record history. -/
theorem save_load_round_trip_witness :
    load_history (save_history [recAdd23]) = .ok [recAdd23] :=
  save_load_round_trip.1 [recAdd23] (by decide)

/-! ### Claim theorems: the operation factory -/

/-- Claim C2: `create_operation` fails with the unknown-operation error
exactly for names whose lower-casing is not registered; for a registered
name the lookup is case-insensitive (any name with the same lower-casing
resolves to the same registered operation kind). -/
theorem factory_create_spec (name : String) :
    (OperationFactory.create_operation name =
        .error (.unknownOperation ("Unknown operation: " ++ name)) ↔
      operationRegistry.lookup (strToLower name) = none) ∧
    (∀ k, OperationFactory.create_operation name = .ok k ↔
      operationRegistry.lookup (strToLower name) = some k) ∧
    (∀ other, strToLower other = strToLower name →
      ∀ k, OperationFactory.create_operation other = .ok k ↔
        OperationFactory.create_operation name = .ok k) := by
  have base : ∀ (n : String) (k : OpKind),
      OperationFactory.create_operation n = .ok k ↔
        operationRegistry.lookup (strToLower n) = some k := by
    intro n k
    unfold OperationFactory.create_operation
    cases hl : operationRegistry.lookup (strToLower n) <;> simp
  refine ⟨?_, base name, ?_⟩
  · unfold OperationFactory.create_operation
    cases hl : operationRegistry.lookup (strToLower name) <;> simp
  · intro other hother k
    rw [base other, base name, hother]

/-- Witness for C2: `"ADD"` resolves case-insensitively to the Addition
kind and an unregistered name fails. -/
theorem factory_create_spec_witness :
    OperationFactory.create_operation "ADD" = .ok .addition ∧
    OperationFactory.create_operation "invalid_op" =
      .error (.unknownOperation ("Unknown operation: " ++ "invalid_op")) ∧
    (OperationFactory.create_operation "Add" = .ok .addition ↔
      OperationFactory.create_operation "add" = .ok .addition) :=
  ⟨((factory_create_spec "ADD").2.1 .addition).mpr (by decide),
   (factory_create_spec "invalid_op").1.mpr (by decide),
   (factory_create_spec "add").2.2 "Add" (by decide) .addition⟩

/-! ### Claim theorems: Power and the Calculation record error kinds -/

theorem execute_power (a b : Dec) :
    Operation.execute .power a b =
      if b.m < 0 then .error (.validationError "Negative exponents not supported")
      else .ok (decPow a b) := rfl

theorem execute_integerDivision (a b : Dec) :
    Operation.execute .integerDivision a b =
      if b.m = 0 then .error (.validationError "Division by zero is not allowed")
      else .ok (decIntDiv a b) := rfl

/-- Claim C9: `Power.execute(a, b)` fails with `ValidationError`
"Negative exponents not supported" exactly when `b < 0`, and for every
`a` — including `a = 0` in any representation — `Power.execute(a, 0)` is
`1`. -/
theorem power_negative_exponent_domain (a b : Dec) :
    (Operation.execute .power a b =
        .error (.validationError "Negative exponents not supported") ↔
      b.toRat < 0) ∧
    (∀ e2 : Nat, Operation.execute .power a ⟨0, e2⟩ = .ok ⟨1, 0⟩) := by
  constructor
  · rw [Dec.toRat_neg_iff, execute_power]
    split_ifs with h <;> simp [h]
  · intro e2
    rw [execute_power]
    rw [if_neg (by simp)]
    have h1 : decToInt ⟨0, e2⟩ = some 0 := by
      simp [decToInt]
    simp [decPow, h1]

set_option maxHeartbeats 2000000 in
/-- Claim C10: every error the `Calculation` record's result computation
raises is an `OperationError` — never the `ValidationError` the operation
strategies raise for the same domain violations — with the Power message
"Negative exponents are not supported", unlike the Power strategy's
"Negative exponents not supported"; an unrecognized operation name also
raises `OperationError`. -/
theorem calculation_domain_errors :
    (∀ (name : String) (x y : Dec) (e : CalcError),
      calcCompute name x y = .error e → ∃ msg, e = .operationError msg) ∧
    calcCompute "Division" ⟨8, 0⟩ ⟨0, 0⟩ =
      .error (.operationError "Division by zero is not allowed") ∧
    calcCompute "Power" ⟨2, 0⟩ ⟨-3, 0⟩ =
      .error (.operationError "Negative exponents are not supported") ∧
    Operation.execute .power ⟨2, 0⟩ ⟨-3, 0⟩ =
      .error (.validationError "Negative exponents not supported") ∧
    calcCompute "Root" ⟨-16, 0⟩ ⟨2, 0⟩ =
      .error (.operationError "Cannot calculate root of negative number") ∧
    calcCompute "Root" ⟨16, 0⟩ ⟨0, 0⟩ =
      .error (.operationError "Zero root is undefined") ∧
    (∃ msg, calcCompute "Root" ⟨0, 0⟩ ⟨-2, 0⟩ = .error (.operationError msg)) ∧
    calcCompute "Unknown" ⟨5, 0⟩ ⟨3, 0⟩ =
      .error (.operationError ("Unknown operation: " ++ "Unknown")) ∧
    Operation.execute .division ⟨5, 0⟩ ⟨0, 0⟩ =
      .error (.validationError "Division by zero is not allowed") := by
  refine ⟨?_, by decide, by decide, by decide, by decide, by decide,
    ⟨"Invalid root operation", by decide⟩, by decide, by decide⟩
  intro name x y e h
  unfold calcCompute at h
  split_ifs at h <;>
    first
      | exact Except.noConfusion h
      | (injection h with h2
         exact ⟨_, h2.symm⟩)
      | (injection h with h2
         revert h2
         unfold raiseInvalidRoot
         split_ifs <;> (intro h2; exact ⟨_, h2.symm⟩))

/-- Witness for C10's universal part at the Division-by-zero record. -/
theorem calculation_domain_errors_witness :
    ∃ msg, (CalcError.operationError "Division by zero is not allowed") =
      .operationError msg :=
  calculation_domain_errors.1 "Division" ⟨8, 0⟩ ⟨0, 0⟩
    (.operationError "Division by zero is not allowed") (by decide)

/-! ### Claim theorems: integer division -/

/-- Counterexample to claim C1: at `(-10, 3)` the integer-division
strategy returns `-3` — the toward-zero truncation the repository's tests
pin down — while mathematical floor division, which the claim asserts,
would give `⌊-10/3⌋ = -4`. -/
theorem integerDivision_floor_counterexample :
    Operation.execute .integerDivision ⟨-10, 0⟩ ⟨3, 0⟩ = .ok ⟨-3, 0⟩ ∧
    ⌊Dec.toRat ⟨-10, 0⟩ / Dec.toRat ⟨3, 0⟩⌋ = -4 ∧
    Dec.toRat ⟨-3, 0⟩ ≠ (-4 : ℚ) := by
  refine ⟨by decide, ?_, by norm_num [Dec.toRat]⟩
  have h : Dec.toRat ⟨-10, 0⟩ / Dec.toRat ⟨3, 0⟩ = (-10 : ℚ) / 3 := by
    norm_num [Dec.toRat]
  rw [h, Int.floor_eq_iff]
  norm_num

theorem intTdiv_spec (A B : Int) (hB : B ≠ 0) :
    |((intTdiv A B : ℤ) : ℚ)| ≤ |(A : ℚ) / (B : ℚ)| ∧
    |(A : ℚ) / (B : ℚ)| < |((intTdiv A B : ℤ) : ℚ)| + 1 ∧
    0 ≤ ((intTdiv A B : ℤ) : ℚ) * ((A : ℚ) / (B : ℚ)) := by
  have hnB : 0 < B.natAbs := Int.natAbs_pos.mpr hB
  have hnBQ : (0 : ℚ) < (B.natAbs : ℚ) := by exact_mod_cast hnB
  have habsA : |(A : ℚ)| = (A.natAbs : ℚ) := by
    rw [← Int.cast_abs, ← Int.natCast_natAbs, Int.cast_natCast]
  have habsB : |(B : ℚ)| = (B.natAbs : ℚ) := by
    rw [← Int.cast_abs, ← Int.natCast_natAbs, Int.cast_natCast]
  have habsdiv : |(A : ℚ) / (B : ℚ)| = (A.natAbs : ℚ) / (B.natAbs : ℚ) := by
    rw [abs_div, habsA, habsB]
  have hq : |((intTdiv A B : ℤ) : ℚ)| = ((A.natAbs / B.natAbs : Nat) : ℚ) := by
    unfold intTdiv
    split_ifs with hs
    · rw [Int.cast_natCast]
      exact abs_of_nonneg (Nat.cast_nonneg _)
    · rw [Int.cast_neg, abs_neg, Int.cast_natCast]
      exact abs_of_nonneg (Nat.cast_nonneg _)
  have h1 : A.natAbs / B.natAbs * B.natAbs ≤ A.natAbs := Nat.div_mul_le_self _ _
  have h2 : A.natAbs < (A.natAbs / B.natAbs + 1) * B.natAbs := by
    have hdm := Nat.div_add_mod A.natAbs B.natAbs
    have hml : A.natAbs % B.natAbs < B.natAbs := Nat.mod_lt _ hnB
    calc A.natAbs = B.natAbs * (A.natAbs / B.natAbs) + A.natAbs % B.natAbs := hdm.symm
      _ < B.natAbs * (A.natAbs / B.natAbs) + B.natAbs := by omega
      _ = (A.natAbs / B.natAbs + 1) * B.natAbs := by ring
  refine ⟨?_, ?_, ?_⟩
  · rw [hq, habsdiv, le_div_iff₀ hnBQ]
    exact_mod_cast h1
  · rw [hq, habsdiv, div_lt_iff₀ hnBQ]
    exact_mod_cast h2
  · unfold intTdiv
    split_ifs with hs
    · by_cases hA : 0 ≤ A
      · have hB0 : 0 ≤ B := hs ▸ hA
        exact mul_nonneg (by positivity)
          (div_nonneg (by exact_mod_cast hA) (by exact_mod_cast hB0))
      · have hB0 : ¬0 ≤ B := hs ▸ hA
        have hx : 0 ≤ (A : ℚ) / (B : ℚ) :=
          div_nonneg_iff.mpr (Or.inr ⟨by exact_mod_cast le_of_not_le hA,
            by exact_mod_cast le_of_not_le hB0⟩)
        exact mul_nonneg (by positivity) hx
    · have hq0 : ((-(((A.natAbs / B.natAbs : Nat) : ℤ)) : ℤ) : ℚ) ≤ 0 := by
        rw [Int.cast_neg, Int.cast_natCast]
        exact neg_nonpos.mpr (Nat.cast_nonneg _)
      have hx0 : (A : ℚ) / (B : ℚ) ≤ 0 := by
        by_cases hA : 0 ≤ A
        · have hB0 : ¬0 ≤ B := fun hb => hs (propext ⟨fun _ => hb, fun _ => hA⟩)
          exact div_nonpos_iff.mpr (Or.inl ⟨by exact_mod_cast hA,
            by exact_mod_cast le_of_not_le hB0⟩)
        · have hB0 : 0 ≤ B := by
            by_contra hb
            exact hs (propext ⟨fun h => absurd h hA, fun h => absurd h hb⟩)
          exact div_nonpos_iff.mpr (Or.inr ⟨by exact_mod_cast le_of_not_le hA,
            by exact_mod_cast hB0⟩)
      exact mul_nonneg_iff.mpr (Or.inr ⟨hq0, hx0⟩)

theorem toRat_div_eq (a b : Dec) (hb : b.m ≠ 0) :
    a.toRat / b.toRat =
      ((a.m * 10 ^ b.e : ℤ) : ℚ) / ((b.m * 10 ^ a.e : ℤ) : ℚ) := by
  unfold Dec.toRat
  have h10a : ((10 : ℚ)) ^ a.e ≠ 0 := by positivity
  have h10b : ((10 : ℚ)) ^ b.e ≠ 0 := by positivity
  have hbm : (b.m : ℚ) ≠ 0 := Int.cast_ne_zero.mpr hb
  have hd1 : (b.m : ℚ) / (10 : ℚ) ^ b.e ≠ 0 := div_ne_zero hbm h10b
  have hd2 : ((b.m * 10 ^ a.e : ℤ) : ℚ) ≠ 0 := by
    push_cast
    exact mul_ne_zero hbm (by positivity)
  rw [div_eq_div_iff hd1 hd2]
  push_cast
  field_simp
  ring

/-- Claim C1 (amended): `IntegerDivision.execute` fails with
`ValidationError` "Division by zero is not allowed" exactly when `b = 0`,
and otherwise returns the quotient of `a` by `b` truncated toward zero —
the integer `q` with `|q| ≤ |a/b| < |q| + 1` whose product with `a/b` is
non-negative — matching the `Decimal` `//` semantics the repository's
tests assert (`-10 // 3 = -3`, `-10 // -3 = 3`), not the mathematical
floor the original claim states. -/
theorem integerDivision_truncated (a b : Dec) :
    (b.toRat = 0 → Operation.execute .integerDivision a b =
      .error (.validationError "Division by zero is not allowed")) ∧
    (b.toRat ≠ 0 → ∃ q : Int,
      Operation.execute .integerDivision a b = .ok ⟨q, 0⟩ ∧
      |(q : ℚ)| ≤ |a.toRat / b.toRat| ∧ |a.toRat / b.toRat| < |(q : ℚ)| + 1 ∧
      0 ≤ (q : ℚ) * (a.toRat / b.toRat)) := by
  constructor
  · intro h
    rw [execute_integerDivision, if_pos ((Dec.toRat_zero_iff b).mp h)]
  · intro h
    have hbm : b.m ≠ 0 := fun hh => h ((Dec.toRat_zero_iff b).mpr hh)
    have hB : (b.m * 10 ^ a.e : ℤ) ≠ 0 :=
      mul_ne_zero hbm (pow_ne_zero _ (by norm_num))
    refine ⟨intTdiv (a.m * 10 ^ b.e) (b.m * 10 ^ a.e), ?_, ?_⟩
    · rw [execute_integerDivision, if_neg hbm]
      rfl
    · rw [toRat_div_eq a b hbm]
      exact intTdiv_spec _ _ hB

/-- Witness for the amended C1 at the counterexample input `(-10, 3)`. -/
theorem integerDivision_truncated_witness :
    ∃ q : Int,
      Operation.execute .integerDivision ⟨-10, 0⟩ ⟨3, 0⟩ = .ok ⟨q, 0⟩ ∧
      |(q : ℚ)| ≤ |Dec.toRat ⟨-10, 0⟩ / Dec.toRat ⟨3, 0⟩| ∧
      |Dec.toRat ⟨-10, 0⟩ / Dec.toRat ⟨3, 0⟩| < |(q : ℚ)| + 1 ∧
      0 ≤ (q : ℚ) * (Dec.toRat ⟨-10, 0⟩ / Dec.toRat ⟨3, 0⟩) :=
  (integerDivision_truncated ⟨-10, 0⟩ ⟨3, 0⟩).2 (by norm_num [Dec.toRat])
